import Mathlib

/-!
Shallow embedding of the resource-access-control domain core of the
repository (src/src/domain/entities/resource_access_control.py,
src/src/domain/entities/_base.py, src/src/shared/notification.py),
together with machine-checked statements of the specification claims.

Modelling conventions:
* Python lists become Lean lists; datetime values become Nat timestamps,
  and each mutating method takes the current time as an explicit
  argument standing for the datetime.now() call it performs.
* The notification channel of the aggregate (Notification in
  src/src/shared/notification.py) is the errors field of the aggregate
  record.  Notification.add_error appends the stripped message when it
  is non-blank; every message recorded by the embedded operations is a
  non-blank constant without surrounding whitespace, so add_error is
  modelled as plain appending.
* Value-object constructors that raise ValueError are modelled as
  functions into Except String, carrying the exact error message.
-/

/-- ResourceRole enum of resource_access_control.py. -/
inductive ResourceRole where
  | FULL_ACCESS
  | EDITOR
  | USER
  | VIEWER
deriving DecidableEq

/-- PrincipalType enum of resource_access_control.py. -/
inductive PrincipalType where
  | ORGANIZATION
  | TEAM
  | USER
deriving DecidableEq

/-- ResourceType enum of resource_access_control.py. -/
inductive ResourceType where
  | AGENTS
  | ORGANIZATION
  | TEAMSPACE
  | KNOWLEDGE_BASE
  | TOOLS
  | MODELS
deriving DecidableEq

/-- Principal value object: a (PrincipalType, PrincipalId) pair.  Its
Python equality and hash compare principal_type and principal_id.value,
so it is a structural value; the PrincipalId payload is its string
value. -/
structure Principal where
  principal_type : PrincipalType
  principal_id : String
deriving DecidableEq

/-- AllowEntry value object payload: a principal plus a role list.
Invariants are enforced by mkAllowEntry below, which models the
validating constructor. -/
structure AllowEntry where
  principal : Principal
  roles : List ResourceRole
deriving DecidableEq

/-- Models AllowEntry.__init__ together with _validate and
_validate_role_hierarchy: the checks run in source order and raise
ValueError with the given message.  The Python duplicate check
len(roles) != len(set(roles)) is the negation of Nodup. -/
def mkAllowEntry (p : Principal) (roles : List ResourceRole) : Except String AllowEntry :=
  if roles = [] then .error ("Lista de papéis não pode estar vazia")
  else if ¬ roles.Nodup then .error ("Não pode haver papéis duplicados")
  else if ResourceRole.FULL_ACCESS ∈ roles ∧ roles.length > 1 then
    .error ("FULL_ACCESS não pode ser combinado com outros papéis")
  else if ResourceRole.EDITOR ∈ roles ∧ ResourceRole.VIEWER ∈ roles then
    .error ("EDITOR já inclui permissões de VIEWER")
  else if ResourceRole.USER ∈ roles ∧ ResourceRole.VIEWER ∈ roles then
    .error ("USER já inclui permissões de VIEWER")
  else .ok ⟨p, roles⟩

/-- AllowEntry.has_role. -/
def AllowEntry.has_role (e : AllowEntry) (r : ResourceRole) : Bool :=
  decide (r ∈ e.roles)

/-- AllowEntry.has_full_access. -/
def AllowEntry.has_full_access (e : AllowEntry) : Bool :=
  decide (ResourceRole.FULL_ACCESS ∈ e.roles)

/-- AllowEntry.can_edit: FULL_ACCESS or EDITOR present. -/
def AllowEntry.can_edit (e : AllowEntry) : Bool :=
  decide (ResourceRole.FULL_ACCESS ∈ e.roles) || decide (ResourceRole.EDITOR ∈ e.roles)

/-- AllowEntry.can_use: FULL_ACCESS, EDITOR or USER present. -/
def AllowEntry.can_use (e : AllowEntry) : Bool :=
  decide (ResourceRole.FULL_ACCESS ∈ e.roles) || decide (ResourceRole.EDITOR ∈ e.roles) ||
    decide (ResourceRole.USER ∈ e.roles)

/-- AllowEntry.can_view: the role list is non-empty. -/
def AllowEntry.can_view (e : AllowEntry) : Bool :=
  decide (e.roles.length > 0)

/-- AllowEntry.can_delete: FULL_ACCESS or EDITOR present. -/
def AllowEntry.can_delete (e : AllowEntry) : Bool :=
  decide (ResourceRole.FULL_ACCESS ∈ e.roles) || decide (ResourceRole.EDITOR ∈ e.roles)

/-- AllowEntry.can_share: FULL_ACCESS present. -/
def AllowEntry.can_share (e : AllowEntry) : Bool :=
  decide (ResourceRole.FULL_ACCESS ∈ e.roles)

/-- Python set equality of two role lists, as used by
AllowEntry.__eq__: set(a) == set(b). -/
def rolesSetEq (a b : List ResourceRole) : Bool :=
  a.all (fun r => decide (r ∈ b)) && b.all (fun r => decide (r ∈ a))

/-- AllowEntry.__eq__: principals equal and role sets equal.  This is
the equality list.remove uses when the aggregate deletes an entry. -/
def beqAllowEntry (x y : AllowEntry) : Bool :=
  decide (x.principal = y.principal) && rolesSetEq x.roles y.roles

/-- Sample principal used by witnesses. -/
def pSample : Principal :=
  ⟨PrincipalType.USER, "11111111-1111-4111-8111-111111111111"⟩

/-- Second sample principal used by witnesses. -/
def pSample2 : Principal :=
  ⟨PrincipalType.TEAM, "22222222-2222-4222-8222-222222222222"⟩

/-- ResourceAccessControl aggregate state.  The five identifier fields
hold the string value of their BaseId wrappers; the errors field is the
aggregate's Notification error list; timestamps are Nat instants. -/
structure ResourceAccessControl where
  id : String
  resource_type : ResourceType
  resource_id : String
  organization_id : String
  owner_id : String
  allow_entries : List AllowEntry
  created_at : Nat
  updated_at : Nat
  errors : List String
deriving DecidableEq

/-- Notification.add_error: appends the (non-blank, already stripped)
message to the aggregate's error list. -/
def ResourceAccessControl.add_error (s : ResourceAccessControl) (msg : String) :
    ResourceAccessControl :=
  { s with errors := s.errors ++ [msg] }

/-- ResourceAccessControl._find_entry_by_principal: first entry whose
principal equals the argument. -/
def ResourceAccessControl.find_entry_by_principal (s : ResourceAccessControl)
    (p : Principal) : Option AllowEntry :=
  s.allow_entries.find? (fun e => decide (e.principal = p))

/-- ResourceAccessControl.add_allow_entry.  The None/type guards of the
source are vacuous in the typed embedding; the duplicate-principal guard
and the append are modelled exactly. -/
def ResourceAccessControl.add_allow_entry (s : ResourceAccessControl) (e : AllowEntry)
    (now : Nat) : ResourceAccessControl :=
  match s.find_entry_by_principal e.principal with
  | some _ => s.add_error ("Principal já possui permissões definidas")
  | none => { s with allow_entries := s.allow_entries ++ [e], updated_at := now }

/-- ResourceAccessControl.remove_allow_entry: find the entry, then
list.remove it, i.e. delete the first element equal to it under
AllowEntry.__eq__ (beqAllowEntry). -/
def ResourceAccessControl.remove_allow_entry (s : ResourceAccessControl) (p : Principal)
    (now : Nat) : ResourceAccessControl :=
  match s.find_entry_by_principal p with
  | none => s.add_error ("Principal não possui permissões definidas")
  | some entry =>
    { s with allow_entries := s.allow_entries.eraseP (fun x => beqAllowEntry x entry),
             updated_at := now }

/-- ResourceAccessControl.update_allow_entry: empty-roles guard, lookup,
then construct the new entry (may raise, caught as the error message),
remove the old entry and append the new one. -/
def ResourceAccessControl.update_allow_entry (s : ResourceAccessControl) (p : Principal)
    (new_roles : List ResourceRole) (now : Nat) : ResourceAccessControl :=
  if new_roles = [] then s.add_error ("Lista de papéis não pode estar vazia")
  else
    match s.find_entry_by_principal p with
    | none => s.add_error ("Principal não possui permissões definidas")
    | some entry =>
      match mkAllowEntry p new_roles with
      | .error msg => s.add_error msg
      | .ok new_entry =>
        let remaining := s.allow_entries.eraseP (fun x => beqAllowEntry x entry)
        { s with allow_entries := remaining ++ [new_entry], updated_at := now }

/-- ResourceAccessControl._grant_role: update when the principal has an
entry, otherwise construct and add (construction failure caught as the
error message). -/
def ResourceAccessControl.grant_role (s : ResourceAccessControl) (p : Principal)
    (roles : List ResourceRole) (now : Nat) : ResourceAccessControl :=
  match s.find_entry_by_principal p with
  | some _ => s.update_allow_entry p roles now
  | none =>
    match mkAllowEntry p roles with
    | .error msg => s.add_error msg
    | .ok new_entry => s.add_allow_entry new_entry now

/-- ResourceAccessControl.grant_full_access. -/
def ResourceAccessControl.grant_full_access (s : ResourceAccessControl) (p : Principal)
    (now : Nat) : ResourceAccessControl :=
  s.grant_role p [ResourceRole.FULL_ACCESS] now

/-- ResourceAccessControl.grant_editor_access. -/
def ResourceAccessControl.grant_editor_access (s : ResourceAccessControl) (p : Principal)
    (now : Nat) : ResourceAccessControl :=
  s.grant_role p [ResourceRole.EDITOR] now

/-- ResourceAccessControl.grant_user_access. -/
def ResourceAccessControl.grant_user_access (s : ResourceAccessControl) (p : Principal)
    (now : Nat) : ResourceAccessControl :=
  s.grant_role p [ResourceRole.USER] now

/-- ResourceAccessControl.grant_viewer_access. -/
def ResourceAccessControl.grant_viewer_access (s : ResourceAccessControl) (p : Principal)
    (now : Nat) : ResourceAccessControl :=
  s.grant_role p [ResourceRole.VIEWER] now

/-- ResourceAccessControl.revoke_access: alias of remove_allow_entry. -/
def ResourceAccessControl.revoke_access (s : ResourceAccessControl) (p : Principal)
    (now : Nat) : ResourceAccessControl :=
  s.remove_allow_entry p now

/-- ResourceAccessControl.clear_all_permissions. -/
def ResourceAccessControl.clear_all_permissions (s : ResourceAccessControl)
    (now : Nat) : ResourceAccessControl :=
  { s with allow_entries := [], updated_at := now }

/-- ResourceAccessControl.has_access. -/
def ResourceAccessControl.has_access (s : ResourceAccessControl) (p : Principal) : Bool :=
  (s.find_entry_by_principal p).isSome

/-- ResourceAccessControl.get_principal_roles. -/
def ResourceAccessControl.get_principal_roles (s : ResourceAccessControl)
    (p : Principal) : List ResourceRole :=
  match s.find_entry_by_principal p with
  | some e => e.roles
  | none => []

/-- ResourceAccessControl.get_all_principals. -/
def ResourceAccessControl.get_all_principals (s : ResourceAccessControl) : List Principal :=
  s.allow_entries.map AllowEntry.principal

/-- The aggregate invariant checked by _validate_business_rules: no two
entries share a principal. -/
def NoDupPrincipals (s : ResourceAccessControl) : Prop :=
  (s.allow_entries.map AllowEntry.principal).Nodup

/-- Sample empty aggregate for witnesses. -/
def racEmpty : ResourceAccessControl :=
  ⟨"a0", ResourceType.AGENTS, "r0", "o0", "w0", [], 0, 0, []⟩

/-- Sample aggregate holding one USER entry for pSample. -/
def racOne : ResourceAccessControl :=
  ⟨"a0", ResourceType.AGENTS, "r0", "o0", "w0", [⟨pSample, [ResourceRole.USER]⟩], 0, 0, []⟩

/-- Hex digit test: the characters accepted in the 32-digit UUID payload
by the int(hex, 16) conversion inside uuid.UUID. -/
def isHexDigitChar (c : Char) : Bool :=
  c.isDigit || ('a' ≤ c && c ≤ 'f') || ('A' ≤ c && c ≤ 'F')

/-- Fuel-indexed removal of every non-overlapping occurrence of pat,
modelling Python str.replace(pat, '') scanning left to right.  The fuel
is the string length, enough for any non-empty pattern. -/
def removeOccAux (pat : List Char) : Nat → List Char → List Char
  | 0, s => s
  | _ + 1, [] => []
  | fuel + 1, c :: cs =>
    if pat.isPrefixOf (c :: cs) then removeOccAux pat fuel ((c :: cs).drop pat.length)
    else c :: removeOccAux pat fuel cs

/-- Python str.replace(pat, '') for a non-empty pattern. -/
def removeOcc (pat s : List Char) : List Char :=
  removeOccAux pat s.length s

/-- The opening curly bracket character, written numerically. -/
def openBraceChar : Char := Char.ofNat 123

/-- The closing curly bracket character, written numerically. -/
def closeBraceChar : Char := Char.ofNat 125

/-- Membership in the strip set of uuid.UUID's hex.strip step. -/
def isBraceChar (c : Char) : Bool :=
  c == openBraceChar || c == closeBraceChar

/-- Python str.strip over the two curly bracket characters: remove them
from both ends. -/
def stripBraces (s : List Char) : List Char :=
  ((s.dropWhile isBraceChar).reverse.dropWhile isBraceChar).reverse

/-- The pattern urn: removed first by uuid.UUID. -/
def urnPat : List Char := ['u', 'r', 'n', ':']

/-- The pattern uuid: removed second by uuid.UUID. -/
def uuidPat : List Char := ['u', 'u', 'i', 'd', ':']

/-- The hyphen pattern removed last by uuid.UUID. -/
def dashPat : List Char := ['-']

/-- The hex payload uuid.UUID extracts from its string argument: drop
urn: and uuid: occurrences, strip curly brackets at the ends, drop
hyphens. -/
def uuidHex (s : List Char) : List Char :=
  removeOcc dashPat (stripBraces (removeOcc uuidPat (removeOcc urnPat s)))

/-- The ASCII whitespace characters Python int() skips around a numeric
literal: space, tab, newline, vertical tab, form feed, carriage return.
CPython first transliterates non-ASCII whitespace to the ASCII space and
non-ASCII decimal digits to ASCII digits; that transliteration is the
identity on the ASCII-only strings of this embedding. -/
def isPyIntSpace (c : Char) : Bool :=
  c == ' ' || c == Char.ofNat 9 || c == Char.ofNat 10 || c == Char.ofNat 11 ||
    c == Char.ofNat 12 || c == Char.ofNat 13

/-- The surrounding-whitespace strip with which int(s, 16) begins and
ends its parse. -/
def stripPyIntSpaces (s : List Char) : List Char :=
  ((s.dropWhile isPyIntSpace).reverse.dropWhile isPyIntSpace).reverse

/-- Continuation of a base-16 digit run after at least one digit: the
run may end, or continue with a digit, or with a single underscore that
must be followed by a digit. -/
def int16DigitsRest : List Char → Bool
  | [] => true
  | c :: cs =>
    if c == '_' then
      match cs with
      | [] => false
      | d :: ds => isHexDigitChar d && int16DigitsRest ds
    else isHexDigitChar c && int16DigitsRest cs

/-- A non-empty base-16 digit run with single underscores allowed
between digits (never leading, trailing, or doubled). -/
def int16Digits : List Char → Bool
  | [] => false
  | c :: cs => isHexDigitChar c && int16DigitsRest cs

/-- The body of a base-16 int literal after the optional sign: either an
explicit 0x or 0X prefix, optionally followed by one underscore, and
then digits, or digits directly. -/
def int16Body (s : List Char) : Bool :=
  match s with
  | c0 :: c1 :: rest =>
    if c0 == '0' && (c1 == 'x' || c1 == 'X') then
      match rest with
      | [] => false
      | c2 :: rest2 => if c2 == '_' then int16Digits rest2 else int16Digits rest
    else int16Digits s
  | _ => int16Digits s

/-- Removal of the single optional sign of an int literal. -/
def int16SignStripped (t : List Char) : List Char :=
  match t with
  | [] => []
  | c :: rest => if c == '+' || c == '-' then rest else c :: rest

/-- Acceptance by Python int(s, 16): optional surrounding whitespace,
optional single sign, optional 0x/0X prefix, then base-16 digits with
single underscores between them. -/
def int16Accepts (s : List Char) : Bool :=
  int16Body (int16SignStripped (stripPyIntSpaces s))

/-- Models acceptance by uuid.UUID(str): the extracted payload must have
exactly 32 characters and parse under int(payload, 16).
BaseId._validate raises ValueError exactly when this fails.  The
source's subsequent range check 0 <= int < 2**128 is vacuous here: the
hyphen removal leaves no minus sign, and a 32-character payload parses
to fewer than 33 hex digits, so the value is always in range. -/
def isValidUUID (s : String) : Bool :=
  (uuidHex s.data).length == 32 && int16Accepts (uuidHex s.data)

/-- C1: for every validly constructed AllowEntry, can_share holds iff
FULL_ACCESS is among its roles; can_edit and can_delete hold iff
FULL_ACCESS or EDITOR is present; can_use holds iff FULL_ACCESS, EDITOR
or USER is present; can_view always holds; in particular for roles
exactly [USER], can_use is true, can_edit false, can_share false,
can_view true. -/
theorem c1_capability_lattice (p : Principal) (rs : List ResourceRole) (e : AllowEntry)
    (h : mkAllowEntry p rs = .ok e) :
    (e.can_share = true ↔ ResourceRole.FULL_ACCESS ∈ rs) ∧
    (e.can_edit = true ↔ (ResourceRole.FULL_ACCESS ∈ rs ∨ ResourceRole.EDITOR ∈ rs)) ∧
    (e.can_delete = true ↔ (ResourceRole.FULL_ACCESS ∈ rs ∨ ResourceRole.EDITOR ∈ rs)) ∧
    (e.can_use = true ↔
      (ResourceRole.FULL_ACCESS ∈ rs ∨ ResourceRole.EDITOR ∈ rs ∨ ResourceRole.USER ∈ rs)) ∧
    e.can_view = true ∧
    (rs = [ResourceRole.USER] →
      e.can_use = true ∧ e.can_edit = false ∧ e.can_share = false ∧ e.can_view = true) := by
  unfold mkAllowEntry at h
  split_ifs at h with h1 h2 h3 h4 h5
  cases h
  refine ⟨?_, ?_, ?_, ?_, ?_, ?_⟩
  · simp [AllowEntry.can_share]
  · simp [AllowEntry.can_edit]
  · simp [AllowEntry.can_delete]
  · simp [AllowEntry.can_use, or_assoc]
  · simp [AllowEntry.can_view]
    exact List.length_pos.mpr h1
  · intro hrs
    subst hrs
    refine ⟨by simp [AllowEntry.can_use], by simp [AllowEntry.can_edit],
      by simp [AllowEntry.can_share], by simp [AllowEntry.can_view]⟩

/-- Witness for C1 at the concrete roles=[USER] entry. -/
theorem c1_capability_lattice_witness :
    mkAllowEntry pSample [ResourceRole.USER] = .ok ⟨pSample, [ResourceRole.USER]⟩ ∧
    ((⟨pSample, [ResourceRole.USER]⟩ : AllowEntry).can_use = true ∧
      (⟨pSample, [ResourceRole.USER]⟩ : AllowEntry).can_edit = false ∧
      (⟨pSample, [ResourceRole.USER]⟩ : AllowEntry).can_share = false ∧
      (⟨pSample, [ResourceRole.USER]⟩ : AllowEntry).can_view = true) := by
  refine ⟨by rfl, ?_⟩
  exact (c1_capability_lattice pSample [ResourceRole.USER] ⟨pSample, [ResourceRole.USER]⟩
    (by rfl)).2.2.2.2.2 rfl

/-- Characterization of successful AllowEntry construction: all five
validation checks pass. -/
theorem mkAllowEntry_isOk_iff (p : Principal) (rs : List ResourceRole) :
    (mkAllowEntry p rs).isOk = true ↔
      (rs ≠ [] ∧ rs.Nodup ∧
        ¬(ResourceRole.FULL_ACCESS ∈ rs ∧ rs.length > 1) ∧
        ¬(ResourceRole.EDITOR ∈ rs ∧ ResourceRole.VIEWER ∈ rs) ∧
        ¬(ResourceRole.USER ∈ rs ∧ ResourceRole.VIEWER ∈ rs)) := by
  unfold mkAllowEntry
  split_ifs <;> simp_all [Except.isOk, Except.toBool]

/-- A list with two distinct members has length greater than one. -/
theorem length_gt_one_of_two_mem {α : Type} {rs : List α} {a b : α}
    (ha : a ∈ rs) (hb : b ∈ rs) (hne : a ≠ b) : rs.length > 1 := by
  match rs, ha, hb with
  | [x], ha, hb =>
    have h1 : a = x := by simpa using ha
    have h2 : b = x := by simpa using hb
    exact absurd (h1.trans h2.symm) hne
  | x :: y :: t, _, _ => simp

/-- C2: AllowEntry construction is rejected iff the role list is empty,
has a duplicate, pairs FULL_ACCESS with another role, pairs EDITOR with
VIEWER, or pairs USER with VIEWER; the four singletons and the pair
[EDITOR, USER] are accepted. -/
theorem c2_allow_entry_validation (p : Principal) (rs : List ResourceRole) :
    ((mkAllowEntry p rs).isOk = false ↔
      (rs = [] ∨ ¬ rs.Nodup ∨
        (ResourceRole.FULL_ACCESS ∈ rs ∧ ∃ r ∈ rs, r ≠ ResourceRole.FULL_ACCESS) ∨
        (ResourceRole.EDITOR ∈ rs ∧ ResourceRole.VIEWER ∈ rs) ∨
        (ResourceRole.USER ∈ rs ∧ ResourceRole.VIEWER ∈ rs))) ∧
    (mkAllowEntry p [ResourceRole.FULL_ACCESS]).isOk = true ∧
    (mkAllowEntry p [ResourceRole.EDITOR]).isOk = true ∧
    (mkAllowEntry p [ResourceRole.USER]).isOk = true ∧
    (mkAllowEntry p [ResourceRole.VIEWER]).isOk = true ∧
    (mkAllowEntry p [ResourceRole.EDITOR, ResourceRole.USER]).isOk = true := by
  refine ⟨?_, by rfl, by rfl, by rfl, by rfl, by rfl⟩
  rw [show ((mkAllowEntry p rs).isOk = false) ↔ ¬((mkAllowEntry p rs).isOk = true) by
    simp [Bool.not_eq_true]]
  rw [mkAllowEntry_isOk_iff]
  constructor
  · intro hnot
    by_contra hdis
    push_neg at hdis
    obtain ⟨hne, hnd, hFAimp, hEV, hUV⟩ := hdis
    refine hnot ⟨hne, hnd, ?_, fun h => hEV h.1 h.2, fun h => hUV h.1 h.2⟩
    rintro ⟨hFA, hlen⟩
    have hall : ∀ r ∈ rs, r = ResourceRole.FULL_ACCESS := hFAimp hFA
    match rs, hnd, hall, hlen with
    | [a], _, hall, hlen => exact absurd hlen (by simp)
    | a :: b :: t, hndup, hall, _ =>
      have ha : a = ResourceRole.FULL_ACCESS := hall a (by simp)
      have hb : b = ResourceRole.FULL_ACCESS := hall b (by simp)
      have : a ∉ b :: t := (List.nodup_cons.mp hndup).1
      exact this (by simp [ha, hb])
  · intro hdis hconj
    obtain ⟨hne, hnd, hFA, hEV, hUV⟩ := hconj
    rcases hdis with h | h | h | h | h
    · exact hne h
    · exact h hnd
    · obtain ⟨hmem, r, hr, hrne⟩ := h
      exact hFA ⟨hmem, length_gt_one_of_two_mem hmem hr (Ne.symm hrne)⟩
    · exact hEV h
    · exact hUV h

/-- AllowEntry.__eq__ is reflexive. -/
theorem beqAllowEntry_self (e : AllowEntry) : beqAllowEntry e e = true := by
  simp [beqAllowEntry, rolesSetEq, List.all_eq_true]

/-- A found entry has the searched principal. -/
theorem find_entry_some_principal {s : ResourceAccessControl} {p : Principal}
    {e : AllowEntry} (h : s.find_entry_by_principal p = some e) : e.principal = p := by
  unfold ResourceAccessControl.find_entry_by_principal at h
  simpa using List.find?_some h

/-- A found entry is a member of the entry list. -/
theorem find_entry_some_mem {s : ResourceAccessControl} {p : Principal}
    {e : AllowEntry} (h : s.find_entry_by_principal p = some e) : e ∈ s.allow_entries := by
  unfold ResourceAccessControl.find_entry_by_principal at h
  exact List.mem_of_find?_eq_some h

/-- Lookup fails exactly when no entry carries the principal. -/
theorem find_entry_none_iff {s : ResourceAccessControl} {p : Principal} :
    s.find_entry_by_principal p = none ↔ ∀ e ∈ s.allow_entries, e.principal ≠ p := by
  unfold ResourceAccessControl.find_entry_by_principal
  rw [List.find?_eq_none]
  simp

/-- find? over an append when the first part has no match. -/
theorem find?_append_of_none {α : Type} {q : α → Bool} {l₁ l₂ : List α}
    (h : l₁.find? q = none) : (l₁ ++ l₂).find? q = l₂.find? q := by
  induction l₁ with
  | nil => simp
  | cons a t ih =>
    by_cases hqa : q a = true
    · rw [List.find?_cons_of_pos _ hqa] at h
      cases h
    · rw [List.find?_cons_of_neg _ hqa] at h
      rw [List.cons_append, List.find?_cons_of_neg _ hqa]
      exact ih h

/-- After list.remove of the entry found for p, no remaining entry
carries p (given the aggregate duplicate-principal invariant). -/
theorem eraseP_found_no_principal {l : List AllowEntry} {p : Principal} {entry : AllowEntry}
    (hnd : (l.map AllowEntry.principal).Nodup)
    (hf : l.find? (fun e => decide (e.principal = p)) = some entry) :
    ∀ x ∈ l.eraseP (fun x => beqAllowEntry x entry), x.principal ≠ p := by
  induction l with
  | nil => cases hf
  | cons a t ih =>
    by_cases ha : a.principal = p
    · rw [List.find?_cons_of_pos _ (by simpa using ha)] at hf
      replace hf : a = entry := by simpa using hf
      subst hf
      simp only [List.eraseP_cons, beqAllowEntry_self, cond_true]
      intro x hx hxp
      have : a.principal ∈ t.map AllowEntry.principal := by
        rw [ha, ← hxp]
        exact List.mem_map_of_mem AllowEntry.principal hx
      exact (List.nodup_cons.mp (by simpa using hnd)).1 this
    · rw [List.find?_cons_of_neg _ (by simpa using ha)] at hf
      have hep : entry.principal = p := by simpa using List.find?_some hf
      have hqa : beqAllowEntry a entry = false := by
        unfold beqAllowEntry
        have : ¬ a.principal = entry.principal := by rw [hep]; exact ha
        simp [this]
      simp only [List.eraseP_cons, hqa, cond_false]
      intro x hx
      rcases List.mem_cons.mp hx with hxa | hxt
      · rw [hxa]; exact ha
      · exact ih (by simpa using (List.nodup_cons.mp (by simpa using hnd)).2) hf x hxt

/-- mkAllowEntry succeeds only with the entry built from its inputs. -/
theorem mkAllowEntry_ok_shape {p : Principal} {rs : List ResourceRole} {e : AllowEntry}
    (h : mkAllowEntry p rs = .ok e) : e = ⟨p, rs⟩ ∧ rs ≠ [] := by
  unfold mkAllowEntry at h
  split_ifs at h with h1 h2 h3 h4 h5
  simp_all

/-- Lookup on a missing principal makes remove_allow_entry record the
error and change nothing else. -/
theorem remove_not_found {s : ResourceAccessControl} {p : Principal} (now : Nat)
    (h : s.find_entry_by_principal p = none) :
    s.remove_allow_entry p now = s.add_error ("Principal não possui permissões definidas") := by
  unfold ResourceAccessControl.remove_allow_entry
  rw [h]

/-- add_allow_entry preserves the unique-principal invariant. -/
theorem nodup_add_allow_entry {s : ResourceAccessControl} (hnd : NoDupPrincipals s)
    (e : AllowEntry) (now : Nat) : NoDupPrincipals (s.add_allow_entry e now) := by
  unfold ResourceAccessControl.add_allow_entry
  cases hf : s.find_entry_by_principal e.principal with
  | some x => exact hnd
  | none =>
    have hnot : ∀ x ∈ s.allow_entries, x.principal ≠ e.principal := find_entry_none_iff.mp hf
    unfold NoDupPrincipals at hnd ⊢
    simp only [List.map_append, List.map_cons, List.map_nil]
    rw [List.nodup_append]
    refine ⟨hnd, List.nodup_singleton _, ?_⟩
    intro q hq hq2
    obtain ⟨x, hx, hxq⟩ := List.mem_map.mp hq
    have hqe : q = e.principal := by simpa using hq2
    exact hnot x hx (hxq.trans hqe)

/-- remove_allow_entry preserves the unique-principal invariant. -/
theorem nodup_remove_allow_entry {s : ResourceAccessControl} (hnd : NoDupPrincipals s)
    (p : Principal) (now : Nat) : NoDupPrincipals (s.remove_allow_entry p now) := by
  unfold ResourceAccessControl.remove_allow_entry
  cases hf : s.find_entry_by_principal p with
  | none => exact hnd
  | some entry =>
    unfold NoDupPrincipals at hnd ⊢
    exact List.Nodup.sublist (List.Sublist.map _ (List.eraseP_sublist _)) hnd

/-- update_allow_entry preserves the unique-principal invariant. -/
theorem nodup_update_allow_entry {s : ResourceAccessControl} (hnd : NoDupPrincipals s)
    (p : Principal) (new_roles : List ResourceRole) (now : Nat) :
    NoDupPrincipals (s.update_allow_entry p new_roles now) := by
  unfold ResourceAccessControl.update_allow_entry
  by_cases hr : new_roles = []
  · rw [if_pos hr]; exact hnd
  · rw [if_neg hr]
    cases hf : s.find_entry_by_principal p with
    | none => exact hnd
    | some entry =>
      cases hmk : mkAllowEntry p new_roles with
      | error msg => exact hnd
      | ok ne =>
        obtain ⟨hshape, hnempty⟩ := mkAllowEntry_ok_shape hmk
        have hf' := hf
        unfold ResourceAccessControl.find_entry_by_principal at hf'
        have herase := eraseP_found_no_principal hnd hf'
        unfold NoDupPrincipals at hnd ⊢
        simp only [List.map_append, List.map_cons, List.map_nil]
        rw [List.nodup_append]
        refine ⟨List.Nodup.sublist (List.Sublist.map _ (List.eraseP_sublist _)) hnd,
      List.nodup_singleton _, ?_⟩
        intro q hq hq2
        obtain ⟨x, hx, hxq⟩ := List.mem_map.mp hq
        have hqe : q = ne.principal := by simpa using hq2
        have hnep : ne.principal = p := by rw [hshape]
        exact herase x hx (hxq.trans (hqe.trans hnep))

/-- _grant_role preserves the unique-principal invariant. -/
theorem nodup_grant_role {s : ResourceAccessControl} (hnd : NoDupPrincipals s)
    (p : Principal) (roles : List ResourceRole) (now : Nat) :
    NoDupPrincipals (s.grant_role p roles now) := by
  unfold ResourceAccessControl.grant_role
  cases hf : s.find_entry_by_principal p with
  | some entry => exact nodup_update_allow_entry hnd p roles now
  | none =>
    cases hmk : mkAllowEntry p roles with
    | error msg => exact hnd
    | ok ne => exact nodup_add_allow_entry hnd ne now

/-- clear_all_permissions preserves the unique-principal invariant. -/
theorem nodup_clear_all_permissions (s : ResourceAccessControl) (now : Nat) :
    NoDupPrincipals (s.clear_all_permissions now) := by
  unfold NoDupPrincipals ResourceAccessControl.clear_all_permissions
  simp

/-- C3: every mutating operation preserves the invariant that no two
entries share a principal. -/
theorem c3_mutations_preserve_unique_principal (s : ResourceAccessControl)
    (hnd : NoDupPrincipals s) (e : AllowEntry) (p : Principal)
    (rs : List ResourceRole) (now : Nat) :
    NoDupPrincipals (s.add_allow_entry e now) ∧
    NoDupPrincipals (s.remove_allow_entry p now) ∧
    NoDupPrincipals (s.update_allow_entry p rs now) ∧
    NoDupPrincipals (s.grant_full_access p now) ∧
    NoDupPrincipals (s.grant_editor_access p now) ∧
    NoDupPrincipals (s.grant_user_access p now) ∧
    NoDupPrincipals (s.grant_viewer_access p now) ∧
    NoDupPrincipals (s.revoke_access p now) ∧
    NoDupPrincipals (s.clear_all_permissions now) :=
  ⟨nodup_add_allow_entry hnd e now, nodup_remove_allow_entry hnd p now,
   nodup_update_allow_entry hnd p rs now,
   nodup_grant_role hnd p [ResourceRole.FULL_ACCESS] now,
   nodup_grant_role hnd p [ResourceRole.EDITOR] now,
   nodup_grant_role hnd p [ResourceRole.USER] now,
   nodup_grant_role hnd p [ResourceRole.VIEWER] now,
   nodup_remove_allow_entry hnd p now,
   nodup_clear_all_permissions s now⟩

/-- Witness for C3 on a concrete one-entry aggregate. -/
theorem c3_mutations_preserve_unique_principal_witness :
    NoDupPrincipals racOne ∧
    NoDupPrincipals (racOne.add_allow_entry ⟨pSample2, [ResourceRole.EDITOR]⟩ 5) :=
  ⟨by unfold NoDupPrincipals; decide,
   (c3_mutations_preserve_unique_principal racOne (by unfold NoDupPrincipals; decide)
     ⟨pSample2, [ResourceRole.EDITOR]⟩ pSample [ResourceRole.VIEWER] 5).1⟩

/-- Singleton role lists always pass AllowEntry validation. -/
theorem mkAllowEntry_single (p : Principal) (r : ResourceRole) :
    mkAllowEntry p [r] = .ok ⟨p, [r]⟩ := by
  cases r <;> rfl

/-- After _grant_role with a single role, the principal's roles are
exactly that role (covers both the add path and the update path). -/
theorem grant_role_single {s : ResourceAccessControl} {p : Principal} {r : ResourceRole}
    (hnd : NoDupPrincipals s) (now : Nat) :
    (s.grant_role p [r] now).get_principal_roles p = [r] := by
  unfold ResourceAccessControl.grant_role
  cases hf : s.find_entry_by_principal p with
  | none =>
    rw [mkAllowEntry_single]
    dsimp only
    unfold ResourceAccessControl.add_allow_entry
    dsimp only
    rw [hf]
    dsimp only
    unfold ResourceAccessControl.get_principal_roles ResourceAccessControl.find_entry_by_principal
    dsimp only
    have hf' := hf
    unfold ResourceAccessControl.find_entry_by_principal at hf'
    rw [find?_append_of_none hf', List.find?_cons_of_pos _ (by simp)]
  | some entry =>
    dsimp only
    unfold ResourceAccessControl.update_allow_entry
    rw [if_neg (show ¬([r] = []) by simp)]
    rw [hf, mkAllowEntry_single]
    dsimp only
    unfold ResourceAccessControl.get_principal_roles ResourceAccessControl.find_entry_by_principal
    dsimp only
    have hf' := hf
    unfold ResourceAccessControl.find_entry_by_principal at hf'
    have herase := eraseP_found_no_principal hnd hf'
    rw [find?_append_of_none (List.find?_eq_none.mpr (fun x hx => by simpa using herase x hx))]
    rw [List.find?_cons_of_pos _ (by simp)]

/-- C6: grant_full_access followed by get_principal_roles yields exactly
[FULL_ACCESS]; a subsequent grant_viewer_access replaces the entry so
the roles become exactly [VIEWER]. -/
theorem c6_grant_round_trip (s : ResourceAccessControl) (p : Principal) (n1 n2 : Nat)
    (hnd : NoDupPrincipals s) :
    (s.grant_full_access p n1).get_principal_roles p = [ResourceRole.FULL_ACCESS] ∧
    ((s.grant_full_access p n1).grant_viewer_access p n2).get_principal_roles p
      = [ResourceRole.VIEWER] :=
  ⟨grant_role_single hnd n1,
   grant_role_single (nodup_grant_role hnd p [ResourceRole.FULL_ACCESS] n1) n2⟩

/-- Witness for C6 on the concrete empty aggregate. -/
theorem c6_grant_round_trip_witness :
    NoDupPrincipals racEmpty ∧
    (racEmpty.grant_full_access pSample 1).get_principal_roles pSample
      = [ResourceRole.FULL_ACCESS] ∧
    ((racEmpty.grant_full_access pSample 1).grant_viewer_access pSample 2).get_principal_roles
      pSample = [ResourceRole.VIEWER] :=
  ⟨by unfold NoDupPrincipals; decide,
   (c6_grant_round_trip racEmpty pSample 1 2 (by unfold NoDupPrincipals; decide)).1,
   (c6_grant_round_trip racEmpty pSample 1 2 (by unfold NoDupPrincipals; decide)).2⟩

/-- C5: add_allow_entry for a principal that already has an entry always
fails: the entry list and updated_at are unchanged and the duplicate
error is recorded. -/
theorem c5_add_existing_principal_fails (s : ResourceAccessControl) (e : AllowEntry)
    (now : Nat) (h : s.has_access e.principal = true) :
    (s.add_allow_entry e now).allow_entries = s.allow_entries ∧
    (s.add_allow_entry e now).updated_at = s.updated_at ∧
    (s.add_allow_entry e now).errors
      = s.errors ++ ["Principal já possui permissões definidas"] := by
  unfold ResourceAccessControl.has_access at h
  unfold ResourceAccessControl.add_allow_entry
  cases hf : s.find_entry_by_principal e.principal with
  | none => rw [hf] at h; cases h
  | some x => exact ⟨rfl, rfl, rfl⟩

/-- Witness for C5: re-adding pSample to racOne fails. -/
theorem c5_add_existing_principal_fails_witness :
    racOne.has_access pSample = true ∧
    (racOne.add_allow_entry ⟨pSample, [ResourceRole.VIEWER]⟩ 3).allow_entries
      = racOne.allow_entries :=
  ⟨by decide, (c5_add_existing_principal_fails racOne ⟨pSample, [ResourceRole.VIEWER]⟩ 3
    (by decide)).1⟩

/-- C7: removing an existing entry makes has_access false, and a second
remove fails, recording the error and leaving the entries unchanged. -/
theorem c7_remove_then_no_access (s : ResourceAccessControl) (p : Principal)
    (n1 n2 : Nat) (hnd : NoDupPrincipals s) (h : s.has_access p = true) :
    (s.remove_allow_entry p n1).has_access p = false ∧
    ((s.remove_allow_entry p n1).remove_allow_entry p n2).allow_entries
      = (s.remove_allow_entry p n1).allow_entries ∧
    ((s.remove_allow_entry p n1).remove_allow_entry p n2).errors
      = (s.remove_allow_entry p n1).errors
        ++ ["Principal não possui permissões definidas"] := by
  obtain ⟨entry, hf⟩ : ∃ e, s.find_entry_by_principal p = some e := by
    unfold ResourceAccessControl.has_access at h
    cases hx : s.find_entry_by_principal p with
    | none => rw [hx] at h; cases h
    | some e => exact ⟨e, rfl⟩
  have hf' := hf
  unfold ResourceAccessControl.find_entry_by_principal at hf'
  have herase := eraseP_found_no_principal hnd hf'
  have hs1 : (s.remove_allow_entry p n1).allow_entries
      = s.allow_entries.eraseP (fun x => beqAllowEntry x entry) := by
    unfold ResourceAccessControl.remove_allow_entry
    rw [hf]
  have hfind1 : (s.remove_allow_entry p n1).find_entry_by_principal p = none := by
    unfold ResourceAccessControl.find_entry_by_principal
    rw [hs1, List.find?_eq_none]
    intro x hx
    simpa using herase x hx
  refine ⟨?_, ?_, ?_⟩
  · unfold ResourceAccessControl.has_access
    rw [hfind1]
    rfl
  · rw [remove_not_found n2 hfind1]
    rfl
  · rw [remove_not_found n2 hfind1]
    rfl

/-- Witness for C7 on racOne. -/
theorem c7_remove_then_no_access_witness :
    NoDupPrincipals racOne ∧ racOne.has_access pSample = true ∧
    (racOne.remove_allow_entry pSample 4).has_access pSample = false :=
  ⟨by unfold NoDupPrincipals; decide, by decide,
   (c7_remove_then_no_access racOne pSample 4 5 (by unfold NoDupPrincipals; decide)
     (by decide)).1⟩

/-- C9: clear_all_permissions always succeeds and is exact about its
frame: the entries become empty, updated_at becomes now, and every other
field (including the error list: no error is recorded) is unchanged. -/
theorem c9_clear_all_permissions_frame (s : ResourceAccessControl) (now : Nat) :
    (s.clear_all_permissions now).get_all_principals = [] ∧
    (s.clear_all_permissions now).allow_entries = [] ∧
    (s.clear_all_permissions now).updated_at = now ∧
    (s.clear_all_permissions now).errors = s.errors ∧
    (s.clear_all_permissions now).id = s.id ∧
    (s.clear_all_permissions now).resource_type = s.resource_type ∧
    (s.clear_all_permissions now).resource_id = s.resource_id ∧
    (s.clear_all_permissions now).organization_id = s.organization_id ∧
    (s.clear_all_permissions now).owner_id = s.owner_id ∧
    (s.clear_all_permissions now).created_at = s.created_at :=
  ⟨rfl, rfl, rfl, rfl, rfl, rfl, rfl, rfl, rfl, rfl⟩

/-- C4: update_allow_entry fails exactly when the principal has no entry
or the new role list would violate the AllowEntry invariants; on failure
the entries and updated_at are unchanged and one error is recorded; on
success the principal's roles become exactly new_roles, updated_at is
set to now, and no error is recorded. -/
theorem c4_update_allow_entry (s : ResourceAccessControl) (p : Principal)
    (new_roles : List ResourceRole) (now : Nat) (hnd : NoDupPrincipals s) :
    ((s.find_entry_by_principal p = none ∨ (mkAllowEntry p new_roles).isOk = false) →
      ((s.update_allow_entry p new_roles now).allow_entries = s.allow_entries ∧
        (s.update_allow_entry p new_roles now).updated_at = s.updated_at ∧
        (s.update_allow_entry p new_roles now).errors.length = s.errors.length + 1)) ∧
    ((∃ entry, s.find_entry_by_principal p = some entry) →
      (mkAllowEntry p new_roles).isOk = true →
      ((s.update_allow_entry p new_roles now).get_principal_roles p = new_roles ∧
        (s.update_allow_entry p new_roles now).updated_at = now ∧
        (s.update_allow_entry p new_roles now).errors = s.errors)) := by
  by_cases hr : new_roles = []
  · subst hr
    constructor
    · intro hfail
      unfold ResourceAccessControl.update_allow_entry
      rw [if_pos rfl]
      exact ⟨rfl, rfl, by simp [ResourceAccessControl.add_error]⟩
    · intro hex hok
      rw [mkAllowEntry_isOk_iff] at hok
      exact absurd rfl hok.1
  · unfold ResourceAccessControl.update_allow_entry
    rw [if_neg hr]
    cases hf : s.find_entry_by_principal p with
    | none =>
      constructor
      · intro hfail
        exact ⟨rfl, rfl, by simp [ResourceAccessControl.add_error]⟩
      · rintro ⟨entry, hentry⟩ hok
        cases hentry
    | some entry =>
      cases hmk : mkAllowEntry p new_roles with
      | error msg =>
        constructor
        · intro hfail
          exact ⟨rfl, rfl, by simp [ResourceAccessControl.add_error]⟩
        · intro hex hok
          simp [Except.isOk, Except.toBool] at hok
      | ok ne =>
        constructor
        · rintro (hnone | hok)
          · cases hnone
          · simp [Except.isOk, Except.toBool] at hok
        · intro hex hok
          obtain ⟨hshape, hnempty⟩ := mkAllowEntry_ok_shape hmk
          subst hshape
          have hf' := hf
          unfold ResourceAccessControl.find_entry_by_principal at hf'
          have herase := eraseP_found_no_principal hnd hf'
          refine ⟨?_, rfl, rfl⟩
          unfold ResourceAccessControl.get_principal_roles
            ResourceAccessControl.find_entry_by_principal
          dsimp only
          rw [find?_append_of_none
            (List.find?_eq_none.mpr (fun x hx => by simpa using herase x hx))]
          rw [List.find?_cons_of_pos _ (by simp)]

/-- Witness for C4: updating an absent principal on racOne fails and
leaves the entries unchanged. -/
theorem c4_update_allow_entry_witness :
    NoDupPrincipals racOne ∧
    (racOne.update_allow_entry pSample2 [ResourceRole.VIEWER] 7).allow_entries
      = racOne.allow_entries :=
  ⟨by unfold NoDupPrincipals; decide,
   ((c4_update_allow_entry racOne pSample2 [ResourceRole.VIEWER] 7
      (by unfold NoDupPrincipals; decide)).1 (Or.inl (by decide))).1⟩

/-- The int(hex, 16) leniency of uuid.UUID is modelled: 32-character
payloads with a 0x prefix, a plus sign, surrounding whitespace, or a
single inner underscore are valid, while misplaced underscores, an
inner space, and a hyphen-shortened payload are not. -/
theorem isValidUUID_int16_boundary :
    isValidUUID "0x111111111111111111111111111111" = true ∧
    isValidUUID "+1111111111111111111111111111111" = true ∧
    isValidUUID " 1111111111111111111111111111111" = true ∧
    isValidUUID "1111111111111111111111111111111 " = true ∧
    isValidUUID "1_111111111111111111111111111111" = true ∧
    isValidUUID "0x_11111111111111111111111111111" = true ∧
    isValidUUID "_1111111111111111111111111111111" = false ∧
    isValidUUID "1111111111111111111111111111111_" = false ∧
    isValidUUID "1 111111111111111111111111111111" = false ∧
    isValidUUID "-1111111111111111111111111111111" = false :=
  ⟨rfl, rfl, rfl, rfl, rfl, rfl, rfl, rfl, rfl, rfl⟩
